import Mathlib

/-!
Verification development for the komari-theme-light dashboard sources
(`src/App.tsx`, `src/components/NodeCard.tsx`, `src/components/ThemeSwitcher.tsx`,
`src/hooks/useTheme.tsx`).

The TypeScript code is shallowly embedded: JavaScript numbers that only ever
hold byte counts are modelled as `Nat`, percentages and other decimal values as
`Rat`, and the few places where a JavaScript division can produce `Infinity` or
`NaN` are modelled by the explicit extended-number type `JSNum`.  Transcendental
computations (`Math.floor(Math.log n / Math.log 1024)`) are modelled exactly by
`Nat.log 1024 n`, and `Number.prototype.toFixed` by exact rational rounding
(round to nearest, ties away from zero for the nonnegative inputs that occur).
-/

namespace Komari

/-- Resource severity levels, the values `normal | warning | critical`
produced by `cpuStatus` / `ramStatus` / `diskStatus` in `NodeCard.tsx`. -/
inductive Severity
  | normal
  | warning
  | critical
  deriving DecidableEq, Repr

/-- Node liveness, the values of the optional `status` field of `NodeData`
(`NodeCard.tsx` line 30): `online | offline`. -/
inductive NodeStatus
  | online
  | offline
  deriving DecidableEq, Repr

/-- Field `stats.cpu` of the `NodeData` interface in `NodeCard.tsx`. -/
structure CpuStat where
  usage : ℚ
  deriving DecidableEq, Repr

/-- A `(total, used)` capacity pair: `stats.ram`, `stats.swap`, `stats.disk`. -/
structure MemPair where
  total : ℕ
  used : ℕ
  deriving DecidableEq, Repr

/-- Field `stats.network` of the `NodeData` interface. -/
structure NetStat where
  up : ℕ
  down : ℕ
  totalUp : ℕ
  totalDown : ℕ
  deriving DecidableEq, Repr

/-- Field `stats.load` of the `NodeData` interface. -/
structure LoadStat where
  load1 : ℚ
  load5 : ℚ
  load15 : ℚ
  deriving DecidableEq, Repr

/-- Field `stats.connections` of the `NodeData` interface. -/
structure ConnStat where
  tcp : ℕ
  udp : ℕ
  deriving DecidableEq, Repr

/-- The live-telemetry object `stats` of the `NodeData` interface
(`NodeCard.tsx` lines 31-41). -/
structure NodeStats where
  cpu : CpuStat
  ram : MemPair
  swap : MemPair
  disk : MemPair
  network : NetStat
  load : LoadStat
  uptime : ℕ
  process : ℕ
  connections : ConnStat
  deriving DecidableEq, Repr

/-- The `NodeData` interface of `NodeCard.tsx` (lines 8-42).  The optional
`status` and `stats` fields are `Option`s; all other fields are static
registry attributes. -/
structure NodeData where
  uuid : String
  name : String
  cpu_name : String
  virtualization : String
  arch : String
  cpu_cores : ℕ
  os : String
  gpu_name : String
  region : String
  mem_total : ℕ
  swap_total : ℕ
  disk_total : ℕ
  weight : ℕ
  price : ℚ
  billing_cycle : ℕ
  currency : String
  expired_at : String
  group : String
  tags : String
  created_at : String
  updated_at : String
  status : Option NodeStatus
  stats : Option NodeStats
  deriving DecidableEq, Repr

/-! ### JavaScript extended numbers

`(used / total) * 100` in `NodeCard.tsx` is an IEEE-754 division: with
`total = 0` it produces `Infinity` (for `used > 0`) or `NaN` (for `used = 0`)
instead of throwing.  `JSNum` models exactly the values this pipeline can
produce. -/

/-- A JavaScript number that is either an exact finite value, `Infinity`,
`-Infinity`, or `NaN`. -/
inductive JSNum
  | num (q : ℚ)
  | inf
  | negInf
  | nan
  deriving DecidableEq, Repr

/-- JavaScript `x >= c` for a possibly non-finite left operand: any comparison
with `NaN` is `false`, and `Infinity >= c` is `true` for every finite `c`. -/
def JSNum.geQ : JSNum → ℚ → Bool
  | .num q, c => decide (c ≤ q)
  | .inf, _ => true
  | .negInf, _ => false
  | .nan, _ => false

/-- Computation `(used / total) * 100` with JavaScript division semantics on natural-number
byte counts: division by zero gives `NaN` when the numerator is zero and
`Infinity` otherwise; any nonzero denominator gives the exact rational. -/
def usagePercent (used total : ℕ) : JSNum :=
  if total = 0 then (if used = 0 then .nan else .inf)
  else .num ((used : ℚ) / (total : ℚ) * 100)

/-! ### Status classification (`NodeCard.tsx` lines 94-116) -/

/-- Function `cpuStatus` from `NodeCard.tsx` lines 94-100: `normal` when `stats` is
absent, otherwise thresholds at 80 (`critical`) and 60 (`warning`). -/
def cpuStatus : Option NodeStats → Severity
  | none => .normal
  | some st =>
    if st.cpu.usage ≥ 80 then .critical
    else if st.cpu.usage ≥ 60 then .warning
    else .normal

/-- Function `ramStatus` from `NodeCard.tsx` lines 102-108: `normal` when `stats` is
absent, otherwise `(used / total) * 100` compared against 85 and 70. -/
def ramStatus : Option NodeStats → Severity
  | none => .normal
  | some st =>
    let usage := usagePercent st.ram.used st.ram.total
    if usage.geQ 85 then .critical
    else if usage.geQ 70 then .warning
    else .normal

/-- Function `diskStatus` from `NodeCard.tsx` lines 110-116: `normal` when `stats` is
absent, otherwise `(used / total) * 100` compared against 90 and 75. -/
def diskStatus : Option NodeStats → Severity
  | none => .normal
  | some st =>
    let usage := usagePercent st.disk.used st.disk.total
    if usage.geQ 90 then .critical
    else if usage.geQ 75 then .warning
    else .normal

/-- The resource kinds distinguished by the `StatusClassifier` of the spec. -/
inductive Resource
  | cpu
  | ram
  | disk
  deriving DecidableEq, Repr

/-- Modelled from the spec: `StatusClassifier.classify` (§4.4), the single
classification function over a resource kind and a utilization ratio that the
spec presents as the abstraction of `cpuStatus` / `ramStatus` / `diskStatus`.
Thresholds: CPU 80/60, RAM 85/70, Disk 90/75. -/
def classify : Resource → ℚ → Severity
  | .cpu, r => if r ≥ 80 then .critical else if r ≥ 60 then .warning else .normal
  | .ram, r => if r ≥ 85 then .critical else if r ≥ 70 then .warning else .normal
  | .disk, r => if r ≥ 90 then .critical else if r ≥ 75 then .warning else .normal

/-- The `critical` threshold of each resource, as fixed by the code. -/
def criticalAt : Resource → ℚ
  | .cpu => 80
  | .ram => 85
  | .disk => 90

/-- The `warning` threshold of each resource, as fixed by the code. -/
def warnAt : Resource → ℚ
  | .cpu => 60
  | .ram => 70
  | .disk => 75

/-! ### Metric formatters (`App.tsx` lines 69-84, duplicated verbatim in
`NodeCard.tsx` lines 51-65) -/

/-- The `sizes` table of `formatBytes`. -/
def byteUnits : List String := ["B", "KB", "MB", "GB", "TB"]

/-- The `sizes` table of `formatSpeed`. -/
def speedUnits : List String := ["B/s", "KB/s", "MB/s", "GB/s"]

/-- The integer chosen by `toFixed(d)` for a finite value `q`: the `n` with
`n / 10 ^ d` closest to `q`, the larger one on ties (ECMA-262
`Number.prototype.toFixed`). -/
def toFixedInt (d : ℕ) (q : ℚ) : ℤ := ⌊q * 10 ^ d + 1 / 2⌋

/-- Left-pad a digit string with zeros to length `d`. -/
def padZeros (d : ℕ) (s : String) : String :=
  String.mk (List.replicate (d - s.length) '0') ++ s

/-- Strip trailing zero digits from a fractional-digit string. -/
def stripZeros (s : String) : String :=
  String.mk ((s.data.reverse.dropWhile (fun c => c == '0')).reverse)

/-- Render the scaled integer `n` (meaning `n / 10 ^ d`) the way JavaScript
prints `parseFloat(x.toFixed(d))`: integer part, then the fractional digits
with trailing zeros removed, with no decimal point when nothing remains. -/
def magFromScaled (d : ℕ) (n : ℕ) : String :=
  let ip := n / 10 ^ d
  let fp := n % 10 ^ d
  if fp = 0 then toString ip
  else toString ip ++ "." ++ stripZeros (padZeros d (toString fp))

/-- Composite `parseFloat(q.toFixed(d))` rendered back to a string by JavaScript
number-to-string conversion, for a nonnegative finite `q`: `q` rounded to `d`
decimal places, printed with trailing fractional zeros (and a then-empty
decimal point) removed. -/
def magnitudeStr (d : ℕ) (q : ℚ) : String :=
  magFromScaled d (toFixedInt d q).toNat

/-- Rendering of `q.toFixed(d)` for a nonnegative finite `q` and `d ≥ 1`: always exactly
`d` fractional digits. -/
def toFixedStr (d : ℕ) (q : ℚ) : String :=
  let n := (toFixedInt d q).toNat
  toString (n / 10 ^ d) ++ "." ++ padZeros d (toString (n % 10 ^ d))

/-- Rendering of `x.toFixed(d)` on a possibly non-finite JavaScript number: `Infinity` and
`NaN` stringify to themselves. -/
def JSNum.toFixedText (d : ℕ) : JSNum → String
  | .num q => toFixedStr d q
  | .inf => "Infinity"
  | .negInf => "-Infinity"
  | .nan => "NaN"

/-- The RAM percentage text `((stats.ram.used / stats.ram.total) * 100).toFixed(1)%`
rendered by `NodeCard.tsx` line 244. -/
def ramPercentText (st : NodeStats) : String :=
  (usagePercent st.ram.used st.ram.total).toFixedText 1 ++ "%"

/-- The disk percentage text rendered by `NodeCard.tsx` line 267. -/
def diskPercentText (st : NodeStats) : String :=
  (usagePercent st.disk.used st.disk.total).toFixedText 1 ++ "%"

/-- Function `formatBytes` (`App.tsx` lines 78-84): `0 B` at zero, otherwise scale by
`1024 ^ i` with `i = Math.floor(Math.log bytes / Math.log 1024)` (exactly
`Nat.log 1024 bytes` for a positive natural), round to 2 decimals, strip
trailing zeros via `parseFloat`, and append `sizes[i]` — which stringifies to
`"undefined"` when `i` falls outside the table, as JavaScript out-of-bounds
indexing yields `undefined` rather than throwing. -/
def formatBytes (bytes : ℕ) : String :=
  if bytes = 0 then "0 B"
  else
    let i := Nat.log 1024 bytes
    magnitudeStr 2 ((bytes : ℚ) / 1024 ^ i) ++ " " ++ byteUnits.getD i "undefined"

/-- Function `formatSpeed` (`App.tsx` lines 69-75): same shape as `formatBytes` but with
1 decimal place and the 4-entry `B/s` table. -/
def formatSpeed (bytesPerSecond : ℕ) : String :=
  if bytesPerSecond = 0 then "0 B/s"
  else
    let i := Nat.log 1024 bytesPerSecond
    magnitudeStr 1 ((bytesPerSecond : ℚ) / 1024 ^ i) ++ " " ++ speedUnits.getD i "undefined"

/-- Function `formatUptime` (`NodeCard.tsx` lines 67-71): whole days and whole remaining
hours; the `天` (day) term is omitted when the day count is zero, the `小时`
(hour) term is omitted when it is zero but days are nonzero. -/
def formatUptime (seconds : ℕ) : String :=
  let days := seconds / 86400
  let hours := (seconds % 86400) / 3600
  if days > 0 then
    toString days ++ "天" ++ (if hours > 0 then toString hours ++ "小时" else "")
  else toString hours ++ "小时"

/-! ### Region-label normalization (`NodeCard.tsx` lines 73-79)

JavaScript strings are scanned left to right by `String.prototype.replace`
with a global pattern: at each position, if the pattern matches, it is
replaced and scanning resumes after the replacement; otherwise the character
is copied unchanged.  `scanReplace` models exactly that scan, parametrized by
the match test and the number of characters a match consumes; a fuel argument
(instantiated with the string length, which always suffices because a match
consumes at least one character) keeps the recursion structural.  The
case-insensitive flag of `/taiwan/gi` canonicalizes only ASCII letters (the
regex has no `u` flag, and ECMA-262 `Canonicalize` never maps a non-ASCII
character to an ASCII one), so per-character ASCII lowercasing is the exact
match semantics. -/

/-- One left-to-right replacement scan: `test s` says whether a match starts
at the head of `s`, `skip` is the match length, `rep` the replacement. -/
def scanReplace (test : List Char → Bool) (skip : ℕ) (rep : List Char) :
    ℕ → List Char → List Char
  | 0, s => s
  | _ + 1, [] => []
  | f + 1, c :: cs =>
    if test (c :: cs) then rep ++ scanReplace test skip rep f ((c :: cs).drop skip)
    else c :: scanReplace test skip rep f cs

/-- Does `test` hold at the head of some suffix of `s` (including the empty
suffix)?  With `test := pat.isPrefixOf` this is `String.prototype.includes`. -/
def occursAny (test : List Char → Bool) : List Char → Bool
  | [] => test []
  | c :: cs => test (c :: cs) || occursAny test cs

/-- JavaScript `s.replace(/pat/g, rep)` on exact character patterns. -/
def replaceAllL (pat rep s : List Char) : List Char :=
  scanReplace (pat.isPrefixOf ·) pat.length rep s.length s

/-- ASCII lowercasing of one character, the canonicalization performed by a
case-insensitive JavaScript regex without the `u` flag. -/
def lowerAscii (c : Char) : Char := c.toLower

/-- Case-insensitive match of the (lowercase) pattern at the head of `s`. -/
def ciMatch : List Char → List Char → Bool
  | [], _ => true
  | _ :: _, [] => false
  | p :: ps, c :: cs => p == lowerAscii c && ciMatch ps cs

/-- JavaScript `s.replace(/pat/gi, rep)` for a lowercase ASCII pattern `pat`. -/
def replaceAllCI (pat rep s : List Char) : List Char :=
  scanReplace (ciMatch pat) pat.length rep s.length s

/-- The Taiwan flag glyph `🇹🇼`: regional indicators T and W. -/
def twFlag : List Char := [Char.ofNat 0x1F1F9, Char.ofNat 0x1F1FC]

/-- The United Nations flag glyph `🇺🇳`: regional indicators U and N. -/
def unFlag : List Char := [Char.ofNat 0x1F1FA, Char.ofNat 0x1F1F3]

/-- The lowercase name pattern of `/taiwan/gi`. -/
def taiwanName : List Char := "taiwan".data

/-- The localized name pattern `台湾`. -/
def taiwanHanzi : List Char := "台湾".data

/-- The replacement label `Taiwan` used by both name rewrites. -/
def taiwanLabel : List Char := "Taiwan".data

/-- The guard of `formatRegion`: the region contains the flag glyph, or its
lowercased text contains `taiwan`, or it contains `台湾`. -/
def hasRegionMarker (region : List Char) : Bool :=
  occursAny (twFlag.isPrefixOf ·) region ||
    occursAny (taiwanName.isPrefixOf ·) (region.map lowerAscii) ||
    occursAny (taiwanHanzi.isPrefixOf ·) region

/-- Function `formatRegion` from `NodeCard.tsx` lines 73-79, on character lists: when a
marker is present, rewrite `🇹🇼` to `🇺🇳`, then any case variant of `taiwan`
to `Taiwan`, then `台湾` to `Taiwan`; otherwise return the label unchanged. -/
def formatRegionL (region : List Char) : List Char :=
  if hasRegionMarker region then
    replaceAllL taiwanHanzi taiwanLabel
      (replaceAllCI taiwanName taiwanLabel (replaceAllL twFlag unFlag region))
  else region

/-- Function `formatRegion` on strings. -/
def formatRegion (region : String) : String :=
  String.mk (formatRegionL region.data)

/-- Interleaving of the segments left untouched by a replacement scan with the
matched words between them:
`joinAlt [a0, a1, ..., ak] [w1, ..., wk] = a0 ++ w1 ++ a1 ++ ... ++ wk ++ ak`. -/
def joinAlt : List (List Char) → List (List Char) → List Char
  | [], _ => []
  | a :: _, [] => a
  | a :: rest, w :: ws => a ++ w ++ joinAlt rest ws

/-- The same segments joined with a fixed separator:
`joinSep sep [a0, a1, ..., ak] = a0 ++ sep ++ a1 ++ ... ++ sep ++ ak`. -/
def joinSep (sep : List Char) : List (List Char) → List Char
  | [] => []
  | [a] => a
  | a :: b :: rest => a ++ sep ++ joinSep sep (b :: rest)

/-! ### Node rendering and liveness (`NodeCard.tsx` lines 81, 143-167) -/

/-- Function `isOnline` (`NodeCard.tsx` line 81): strict equality with `online`;
an absent `status` compares unequal. -/
def isOnline (n : NodeData) : Bool := n.status = some NodeStatus.online

/-- The status badge text of `NodeCard.tsx` line 166:
`在线` (online) or `离线` (offline). -/
def statusBadgeText (n : NodeData) : String :=
  if isOnline n then "在线" else "离线"

/-- The card border accent class of `NodeCard.tsx` line 143. -/
def cardBorderClass (n : NodeData) : String :=
  if isOnline n then "border-l-green-500" else "border-l-red-500"

/-- The region line of `NodeCard.tsx` line 158: the rendered string is
`formatRegion` of the `region` field of the record; the record itself is read
only. -/
def regionLineText (n : NodeData) : String := formatRegion n.region

/-! ### Fleet network aggregation (`App.tsx` lines 48-64) -/

/-- The accumulator of `getTotalNetworkStats`: the four running sums. -/
structure NetTotals where
  totalUp : ℕ
  totalDown : ℕ
  totalUpTraffic : ℕ
  totalDownTraffic : ℕ
  deriving DecidableEq, Repr

/-- One `forEach` step of `getTotalNetworkStats`: a node contributes its four
network counters exactly when `status === online` and `stats` is present
(`node.stats?.network` — `network` is a mandatory object inside `stats`, so
its truthiness only tests `stats` presence; the `|| 0` fallbacks are
no-ops on natural-number counters). -/
def netStep (acc : NetTotals) (node : NodeData) : NetTotals :=
  match node.status, node.stats with
  | some .online, some st =>
    ⟨acc.totalUp + st.network.up, acc.totalDown + st.network.down,
      acc.totalUpTraffic + st.network.totalUp, acc.totalDownTraffic + st.network.totalDown⟩
  | _, _ => acc

/-- Function `getTotalNetworkStats`: fold the step over the node list starting from
four zero sums. -/
def getTotalNetworkStats (nodes : List NodeData) : NetTotals :=
  nodes.foldl netStep ⟨0, 0, 0, 0⟩

/-- A record that participates in the network sums: `status = online` with
present `NodeStats`. -/
def liveWithStats (n : NodeData) : Bool :=
  decide (n.status = some NodeStatus.online) && n.stats.isSome

/-- The instantaneous-up counter of a record, zero when telemetry is absent. -/
def netUpOf (n : NodeData) : ℕ :=
  match n.stats with | some st => st.network.up | none => 0

/-- The instantaneous-down counter of a record, zero when telemetry is absent. -/
def netDownOf (n : NodeData) : ℕ :=
  match n.stats with | some st => st.network.down | none => 0

/-- The cumulative-up counter of a record, zero when telemetry is absent. -/
def netTotalUpOf (n : NodeData) : ℕ :=
  match n.stats with | some st => st.network.totalUp | none => 0

/-- The cumulative-down counter of a record, zero when telemetry is absent. -/
def netTotalDownOf (n : NodeData) : ℕ :=
  match n.stats with | some st => st.network.totalDown | none => 0

/-- Modelled from the spec: the fleet network aggregate described in §4.3 and
claim C7 — the component-wise sums of the four network counters over exactly
those records with `status = online` and present `NodeStats`. -/
def networkSumsSpec (nodes : List NodeData) : NetTotals :=
  { totalUp := ((nodes.filter liveWithStats).map netUpOf).sum
    totalDown := ((nodes.filter liveWithStats).map netDownOf).sum
    totalUpTraffic := ((nodes.filter liveWithStats).map netTotalUpOf).sum
    totalDownTraffic := ((nodes.filter liveWithStats).map netTotalDownOf).sum }

/-! ### Theme restoration (`useTheme.tsx` lines 12-21) -/

/-- The closed set of recognized theme identifiers (`useTheme.tsx` line 3 and
the literal array on line 18). -/
def themeIds : List String :=
  ["clean", "sunrise", "green-mountain", "blue-water", "night",
    "material-indigo", "material-pink", "material-teal"]

/-- The initial theme of `useState` — the literal `clean`. -/
def defaultTheme : String := "clean"

/-- The theme after the restoration effect of `ThemeProvider` runs against the
value read from durable storage: `null` (absent) is modelled as `none`; a
stored string is applied only when it is truthy and a member of the literal
identifier array, otherwise the state keeps its default. -/
def restoreTheme (saved : Option String) : String :=
  match saved with
  | none => defaultTheme
  | some s => if !s.isEmpty && themeIds.contains s then s else defaultTheme

/-! ### Concrete sample builders used by witnesses and scenarios -/

/-- A node record with the given identity, liveness and telemetry; static
attributes take neutral defaults. -/
def mkNode (uuid : String) (status : Option NodeStatus) (stats : Option NodeStats) :
    NodeData :=
  { uuid := uuid, name := uuid, cpu_name := "", virtualization := "", arch := "",
    cpu_cores := 1, os := "", gpu_name := "", region := "", mem_total := 0,
    swap_total := 0, disk_total := 0, weight := 0, price := 0, billing_cycle := 0,
    currency := "", expired_at := "", group := "", tags := "", created_at := "",
    updated_at := "", status := status, stats := stats }

/-- A telemetry record with the given CPU usage, RAM and disk pairs and
network counters. -/
def mkStats (usage : ℚ) (ram disk : MemPair) (net : NetStat) : NodeStats :=
  { cpu := ⟨usage⟩, ram := ram, swap := ⟨0, 0⟩, disk := disk, network := net,
    load := ⟨0, 0, 0⟩, uptime := 0, process := 0, connections := ⟨0, 0⟩ }

/-- Telemetry of sample node `a`. -/
def statsA : NodeStats := mkStats 50 ⟨4, 2⟩ ⟨10, 1⟩ ⟨10, 20, 100, 200⟩

/-- Telemetry of sample node `b`. -/
def statsB : NodeStats := mkStats 10 ⟨8, 1⟩ ⟨20, 2⟩ ⟨1, 2, 203, 204⟩

/-- Sample node `a`: online with telemetry. -/
def nodeA : NodeData := mkNode "a" (some .online) (some statsA)

/-- Sample node `b`: online with telemetry. -/
def nodeB : NodeData := mkNode "b" (some .online) (some statsB)

/-- Sample node `c`: registered but never reported — no status, no telemetry. -/
def nodeC : NodeData := mkNode "c" none none

/-- A sample node with telemetry but an absent `status` field. -/
def nodeNoStatus : NodeData := mkNode "d" none (some statsA)

/-- A sample node that is online but whose telemetry has not arrived. -/
def nodeOnlineNoStats : NodeData := mkNode "e" (some .online) none

/-- Malformed telemetry: RAM reports `total = 0` with `used = 5`, disk reports
`total = 0` with `used = 0`. -/
def statsZeroTotals : NodeStats := mkStats 0 ⟨0, 5⟩ ⟨0, 0⟩ ⟨0, 0, 0, 0⟩

/-! ## Helper lemmas -/

lemma classify_eq_ite (r : Resource) (q : ℚ) :
    classify r q =
      if criticalAt r ≤ q then .critical else if warnAt r ≤ q then .warning else .normal := by
  cases r <;> simp [classify, criticalAt, warnAt, ge_iff_le]

lemma warnAt_lt_criticalAt (r : Resource) : warnAt r < criticalAt r := by
  cases r <;> norm_num [warnAt, criticalAt]

lemma toFixedInt_div_nat (d b m : ℕ) (hm : m ≠ 0) :
    toFixedInt d ((b : ℚ) / (m : ℚ)) = ((b * 10 ^ d * 2 + m) / (2 * m) : ℕ) := by
  have hm' : (m : ℚ) ≠ 0 := Nat.cast_ne_zero.2 hm
  have h2m : ((2 * m : ℕ) : ℚ) ≠ 0 := by
    exact_mod_cast mul_ne_zero two_ne_zero hm
  unfold toFixedInt
  have h : (b : ℚ) / (m : ℚ) * 10 ^ d + 1 / 2
      = (((b * 10 ^ d * 2 + m : ℕ) : ℤ) : ℚ) / ((2 * m : ℕ) : ℚ) := by
    rw [eq_div_iff h2m]
    push_cast
    have e1 : (b : ℚ) / ↑m * 10 ^ d * (2 * ↑m) + 1 / 2 * (2 * ↑m)
        = (b : ℚ) * 10 ^ d * 2 * (↑m / ↑m) + ↑m := by ring
    rw [add_mul, e1, div_self hm', mul_one]
  rw [h, Rat.floor_intCast_div_natCast]
  norm_cast

lemma magnitudeStr_div_nat (d b m : ℕ) (hm : m ≠ 0) :
    magnitudeStr d ((b : ℚ) / (m : ℚ)) = magFromScaled d ((b * 10 ^ d * 2 + m) / (2 * m)) := by
  rw [magnitudeStr, toFixedInt_div_nat d b m hm, Int.toNat_natCast]

lemma pow_cast_1024 (i : ℕ) : ((1024 : ℚ)) ^ i = (((1024 : ℕ) ^ i : ℕ) : ℚ) := by
  push_cast
  rfl

lemma formatBytes_eval (b : ℕ) (hb : b ≠ 0) :
    formatBytes b =
      magFromScaled 2
          ((b * 10 ^ 2 * 2 + 1024 ^ Nat.log 1024 b) / (2 * 1024 ^ Nat.log 1024 b))
        ++ " " ++ byteUnits.getD (Nat.log 1024 b) "undefined" := by
  have hm : (1024 : ℕ) ^ Nat.log 1024 b ≠ 0 := pow_ne_zero _ (by norm_num)
  simp only [formatBytes, hb, if_false, ite_false, if_neg hb]
  rw [pow_cast_1024, magnitudeStr_div_nat 2 b _ hm]

lemma formatSpeed_eval (r : ℕ) (hr : r ≠ 0) :
    formatSpeed r =
      magFromScaled 1
          ((r * 10 ^ 1 * 2 + 1024 ^ Nat.log 1024 r) / (2 * 1024 ^ Nat.log 1024 r))
        ++ " " ++ speedUnits.getD (Nat.log 1024 r) "undefined" := by
  have hm : (1024 : ℕ) ^ Nat.log 1024 r ≠ 0 := pow_ne_zero _ (by norm_num)
  simp only [formatSpeed, hr, if_false, ite_false, if_neg hr]
  rw [pow_cast_1024, magnitudeStr_div_nat 1 r _ hm]

/-! ## Claims -/

/-- C1: Resource status classification uses the fixed resource-specific
thresholds — CPU 80/60, RAM 85/70, disk 90/75 — with `>=` comparisons, so the
boundary values classify upward: `classify cpu 80 = critical`,
`classify cpu 60 = warning`, `classify cpu 59.999 = normal`; and the
source-level `cpuStatus` / `ramStatus` / `diskStatus` agree with `classify`
on the respective usage ratio whenever that ratio is a finite number. -/
theorem classification_fixed_thresholds :
    (∀ (r : Resource) (q : ℚ),
        (classify r q = .critical ↔ criticalAt r ≤ q) ∧
        (classify r q = .warning ↔ warnAt r ≤ q ∧ q < criticalAt r) ∧
        (classify r q = .normal ↔ q < warnAt r)) ∧
    classify .cpu 80 = .critical ∧
    classify .cpu 60 = .warning ∧
    classify .cpu (59999 / 1000) = .normal ∧
    (∀ st : NodeStats, cpuStatus (some st) = classify .cpu st.cpu.usage) ∧
    (∀ st : NodeStats, st.ram.total ≠ 0 →
        ramStatus (some st) = classify .ram ((st.ram.used : ℚ) / st.ram.total * 100)) ∧
    (∀ st : NodeStats, st.disk.total ≠ 0 →
        diskStatus (some st) = classify .disk ((st.disk.used : ℚ) / st.disk.total * 100)) := by
  have key : ∀ (r : Resource) (q : ℚ),
      (classify r q = .critical ↔ criticalAt r ≤ q) ∧
      (classify r q = .warning ↔ warnAt r ≤ q ∧ q < criticalAt r) ∧
      (classify r q = .normal ↔ q < warnAt r) := by
    intro r q
    have hwc := warnAt_lt_criticalAt r
    rw [classify_eq_ite]
    split_ifs with h1 h2
    · exact ⟨⟨fun _ => h1, fun _ => rfl⟩,
        ⟨fun h => (nomatch h), fun h => absurd h1 (not_le.2 h.2)⟩,
        ⟨fun h => (nomatch h), fun h => absurd h1 (not_le.2 (h.trans hwc))⟩⟩
    · exact ⟨⟨fun h => (nomatch h), fun h => absurd h h1⟩,
        ⟨fun _ => ⟨h2, not_le.1 h1⟩, fun _ => rfl⟩,
        ⟨fun h => (nomatch h), fun h => absurd h2 (not_le.2 h)⟩⟩
    · exact ⟨⟨fun h => (nomatch h), fun h => absurd h h1⟩,
        ⟨fun h => (nomatch h), fun h => absurd h.1 h2⟩,
        ⟨fun _ => not_le.1 h2, fun _ => rfl⟩⟩
  refine ⟨key, ?_, ?_, ?_, ?_, ?_, ?_⟩
  · rw [classify_eq_ite]
    norm_num [criticalAt]
  · rw [classify_eq_ite]
    norm_num [criticalAt, warnAt]
  · rw [classify_eq_ite]
    norm_num [criticalAt, warnAt]
  · intro st
    simp [cpuStatus, classify]
  · intro st hne
    simp [ramStatus, usagePercent, hne, JSNum.geQ, classify, ge_iff_le]
  · intro st hne
    simp [diskStatus, usagePercent, hne, JSNum.geQ, classify, ge_iff_le]

/-- Witness for C1 at concrete inputs: node `a` has RAM total 4 ≠ 0, and the
source-level `ramStatus` agrees there with the spec-level `classify`. -/
theorem classification_fixed_thresholds_witness :
    statsA.ram.total ≠ 0 ∧
      ramStatus (some statsA)
        = classify .ram ((statsA.ram.used : ℚ) / statsA.ram.total * 100) :=
  ⟨by decide, classification_fixed_thresholds.2.2.2.2.2.1 statsA (by decide)⟩

/-- C2: classification is total — below the warning threshold it is `normal`,
absent `NodeStats` gives `normal` for every resource, and an unclamped ratio
above 100 still classifies as `critical` through the same comparison. -/
theorem classification_total_unclamped :
    (∀ (r : Resource) (q : ℚ), q < warnAt r → classify r q = .normal) ∧
    (∀ (r : Resource) (q : ℚ), 100 < q → classify r q = .critical) ∧
    cpuStatus none = .normal ∧ ramStatus none = .normal ∧ diskStatus none = .normal := by
  refine ⟨?_, ?_, rfl, rfl, rfl⟩
  · intro r q h
    have hwc := warnAt_lt_criticalAt r
    rw [classify_eq_ite, if_neg (by linarith), if_neg (by linarith)]
  · intro r q h
    have hc : criticalAt r ≤ 100 := by cases r <;> norm_num [criticalAt]
    rw [classify_eq_ite, if_pos (by linarith)]

/-- Witness for C2: ratio 30 is below the CPU warning threshold and classifies
`normal`; ratio 250 is above 100 and classifies `critical` for RAM. -/
theorem classification_total_unclamped_witness :
    ((30 : ℚ) < warnAt .cpu ∧ classify .cpu 30 = .normal) ∧
      ((100 : ℚ) < 250 ∧ classify .ram 250 = .critical) :=
  ⟨⟨by norm_num [warnAt], classification_total_unclamped.1 .cpu 30 (by norm_num [warnAt])⟩,
    ⟨by norm_num, classification_total_unclamped.2.1 .ram 250 (by norm_num)⟩⟩

/-- C3: the byte and rate formatters special-case zero — `formatBytes 0 = "0 B"`,
`formatSpeed 0 = "0 B/s"` — and `formatBytes 1536 = "1.5 KB"`. -/
theorem formatters_zero_and_1536 :
    formatBytes 0 = "0 B" ∧ formatSpeed 0 = "0 B/s" ∧ formatBytes 1536 = "1.5 KB" := by
  refine ⟨by decide, by decide, ?_⟩
  have hlog : Nat.log 1024 1536 = 1 :=
    Nat.log_eq_of_pow_le_of_lt_pow (by norm_num) (by norm_num)
  rw [formatBytes_eval 1536 (by norm_num), hlog]
  decide

lemma ciMatch_eq_isPrefixOf (pat : List Char) :
    ∀ s : List Char, ciMatch pat s = pat.isPrefixOf (s.map lowerAscii) := by
  induction pat with
  | nil => intro s; simp [ciMatch, List.isPrefixOf]
  | cons p ps ih =>
    intro s
    cases s with
    | nil => simp [ciMatch, List.isPrefixOf]
    | cons c cs => simp [ciMatch, List.isPrefixOf, ih]

lemma joinSep_cons (sep a : List Char) (rest : List (List Char)) (h : rest ≠ []) :
    joinSep sep (a :: rest) = a ++ sep ++ joinSep sep rest := by
  cases rest with
  | nil => exact absurd rfl h
  | cons b r => rfl

lemma scanReplace_decomp (test : List Char → Bool) (skip : ℕ) (rep : List Char)
    (P : List Char → Prop)
    (h0 : test [] = false)
    (h1 : 1 ≤ skip)
    (h2 : ∀ t, test t = true → skip ≤ t.length)
    (hext : ∀ u v, test u = true → test (u ++ v) = true)
    (hP : ∀ t, test t = true → P (t.take skip)) :
    ∀ f s, s.length ≤ f →
      ∃ segs ws, segs.length = ws.length + 1 ∧
        (∀ w ∈ ws, P w) ∧
        s = joinAlt segs ws ∧
        scanReplace test skip rep f s = joinSep rep segs ∧
        ∀ a ∈ segs, occursAny test a = false := by
  intro f
  induction f with
  | zero =>
    intro s hs
    have hsnil : s = [] := List.length_eq_zero.1 (Nat.le_zero.1 hs)
    subst hsnil
    exact ⟨[[]], [], rfl, by simp, rfl, rfl, by simp [occursAny, h0]⟩
  | succ g ih =>
    intro s hs
    cases s with
    | nil =>
      exact ⟨[[]], [], rfl, by simp, rfl, rfl, by simp [occursAny, h0]⟩
    | cons c cs =>
      simp only [List.length_cons] at hs
      by_cases htest : test (c :: cs) = true
      · have hskiplen : skip ≤ cs.length + 1 := by
          have := h2 _ htest
          simpa using this
        have hdroplen : ((c :: cs).drop skip).length ≤ g := by
          simp only [List.length_drop, List.length_cons]
          omega
        obtain ⟨segs, ws, hlen, hPws, hdec, hout, hsegs⟩ := ih _ hdroplen
        have hsegne : segs ≠ [] := by
          intro hcon
          rw [hcon] at hlen
          simp at hlen
        refine ⟨[] :: segs, (c :: cs).take skip :: ws, by simp [hlen], ?_, ?_, ?_, ?_⟩
        · intro w hw
          rcases List.mem_cons.1 hw with rfl | hw
          · exact hP _ htest
          · exact hPws w hw
        · show c :: cs = [] ++ ((c :: cs).take skip ++ joinAlt segs ws)
          rw [← hdec]
          simp [List.take_append_drop]
        · simp only [scanReplace]
          rw [if_pos htest, hout, joinSep_cons rep [] segs hsegne]
          simp
        · intro a ha
          rcases List.mem_cons.1 ha with rfl | ha
          · simp [occursAny, h0]
          · exact hsegs a ha
      · have hcslen : cs.length ≤ g := by omega
        obtain ⟨segs, ws, hlen, hPws, hdec, hout, hsegs⟩ := ih cs hcslen
        rcases segs with _ | ⟨a0, rest⟩
        · simp at hlen
        refine ⟨(c :: a0) :: rest, ws, by simpa using hlen, hPws, ?_, ?_, ?_⟩
        · rcases ws with _ | ⟨w, ws2⟩
          · simp only [joinAlt] at hdec ⊢
            rw [hdec]
          · simp only [joinAlt] at hdec ⊢
            rw [hdec]
            simp
        · simp only [scanReplace]
          rw [if_neg htest, hout]
          rcases rest with _ | ⟨r0, rest2⟩
          · rfl
          · simp [joinSep, List.cons_append, List.append_assoc]
        · intro a ha
          rcases List.mem_cons.1 ha with rfl | ha
          · have hseg0 : occursAny test a0 = false := hsegs a0 (by simp)
            have hhead : test (c :: a0) = false := by
              by_cases hcon : test (c :: a0) = true
              · exfalso
                apply htest
                rcases ws with _ | ⟨w, ws2⟩
                · have hcs : cs = a0 := by simpa [joinAlt] using hdec
                  rw [hcs]
                  exact hcon
                · have hcs : cs = a0 ++ (w ++ joinAlt rest ws2) := by
                    simpa [joinAlt, List.append_assoc] using hdec
                  have hx := hext (c :: a0) (w ++ joinAlt rest ws2) hcon
                  rw [hcs]
                  simpa using hx
              · simpa using hcon
            simp [occursAny, hhead, hseg0]
          · exact hsegs a (List.mem_cons.2 (Or.inr ha))

/-- C6: region-label normalization, universally.  A label containing none of
the three markers is returned unchanged.  For every string, each rewrite pass
splits it into match-free segments interleaved with its matched words — every
`🇹🇼` glyph, every case variant of `taiwan`, every `台湾` — and produces
exactly the same segments interleaved with the neutral replacement (`🇺🇳`,
resp. the label `Taiwan`), so every occurrence is rewritten and all other
characters are untouched; a marked label is exactly the three passes composed.
The `region` field of the node record is only read, never altered
(`regionLineText` is a pure function of it). -/
theorem region_label_normalization :
    (∀ s : List Char, hasRegionMarker s = false → formatRegionL s = s) ∧
    (∀ s : String, hasRegionMarker s.data = false → formatRegion s = s) ∧
    (∀ s : List Char, ∃ segs ws,
        segs.length = ws.length + 1 ∧
        (∀ w ∈ ws, w = twFlag) ∧
        s = joinAlt segs ws ∧
        replaceAllL twFlag unFlag s = joinSep unFlag segs ∧
        ∀ a ∈ segs, occursAny (twFlag.isPrefixOf ·) a = false) ∧
    (∀ s : List Char, ∃ segs ws,
        segs.length = ws.length + 1 ∧
        (∀ w ∈ ws, w.map lowerAscii = taiwanName) ∧
        s = joinAlt segs ws ∧
        replaceAllCI taiwanName taiwanLabel s = joinSep taiwanLabel segs ∧
        ∀ a ∈ segs, occursAny (ciMatch taiwanName) a = false) ∧
    (∀ s : List Char, ∃ segs ws,
        segs.length = ws.length + 1 ∧
        (∀ w ∈ ws, w = taiwanHanzi) ∧
        s = joinAlt segs ws ∧
        replaceAllL taiwanHanzi taiwanLabel s = joinSep taiwanLabel segs ∧
        ∀ a ∈ segs, occursAny (taiwanHanzi.isPrefixOf ·) a = false) ∧
    (∀ s : List Char, hasRegionMarker s = true →
        formatRegionL s =
          replaceAllL taiwanHanzi taiwanLabel
            (replaceAllCI taiwanName taiwanLabel (replaceAllL twFlag unFlag s))) ∧
    formatRegion "Asia 🇹🇼 Taipei" = "Asia 🇺🇳 Taipei" ∧
    formatRegion "TAIWAN-01" = "Taiwan-01" ∧
    formatRegion "台湾 HK" = "Taiwan HK" ∧
    (∀ n : NodeData, regionLineText n = formatRegion n.region) := by
  have hid : ∀ s : List Char, hasRegionMarker s = false → formatRegionL s = s := by
    intro s h
    simp [formatRegionL, h]
  have exactDecomp : ∀ pat rep : List Char, pat ≠ [] →
      ∀ s : List Char, ∃ segs ws,
        segs.length = ws.length + 1 ∧
        (∀ w ∈ ws, w = pat) ∧
        s = joinAlt segs ws ∧
        replaceAllL pat rep s = joinSep rep segs ∧
        ∀ a ∈ segs, occursAny (pat.isPrefixOf ·) a = false := by
    intro pat rep hpat s
    have h0 : pat.isPrefixOf ([] : List Char) = false := by
      rcases pat with _ | ⟨p, ps⟩
      · exact absurd rfl hpat
      · rfl
    have h1 : 1 ≤ pat.length := by
      rcases pat with _ | ⟨p, ps⟩
      · exact absurd rfl hpat
      · simp
    have h2 : ∀ t : List Char, pat.isPrefixOf t = true → pat.length ≤ t.length :=
      fun t ht => (List.isPrefixOf_iff_prefix.1 ht).length_le
    have h3 : ∀ u v : List Char, pat.isPrefixOf u = true →
        pat.isPrefixOf (u ++ v) = true := by
      intro u v hu
      rw [List.isPrefixOf_iff_prefix] at hu ⊢
      exact hu.trans (List.prefix_append u v)
    have hPf : ∀ t : List Char, pat.isPrefixOf t = true → t.take pat.length = pat := by
      intro t ht
      obtain ⟨r, rfl⟩ := List.isPrefixOf_iff_prefix.1 ht
      exact List.take_left _ _
    obtain ⟨segs, ws, hl, hw, hd, ho, hsg⟩ :=
      scanReplace_decomp (pat.isPrefixOf ·) pat.length rep (fun w => w = pat)
        h0 h1 h2 h3 hPf s.length s le_rfl
    exact ⟨segs, ws, hl, hw, hd, by rw [replaceAllL]; exact ho, hsg⟩
  have ciDecomp : ∀ s : List Char, ∃ segs ws,
      segs.length = ws.length + 1 ∧
      (∀ w ∈ ws, w.map lowerAscii = taiwanName) ∧
      s = joinAlt segs ws ∧
      replaceAllCI taiwanName taiwanLabel s = joinSep taiwanLabel segs ∧
      ∀ a ∈ segs, occursAny (ciMatch taiwanName) a = false := by
    intro s
    have h0 : ciMatch taiwanName [] = false := by decide
    have h1 : 1 ≤ taiwanName.length := by decide
    have h2 : ∀ t : List Char, ciMatch taiwanName t = true →
        taiwanName.length ≤ t.length := by
      intro t ht
      rw [ciMatch_eq_isPrefixOf] at ht
      have := (List.isPrefixOf_iff_prefix.1 ht).length_le
      simpa using this
    have h3 : ∀ u v : List Char, ciMatch taiwanName u = true →
        ciMatch taiwanName (u ++ v) = true := by
      intro u v hu
      rw [ciMatch_eq_isPrefixOf] at hu ⊢
      rw [List.isPrefixOf_iff_prefix] at hu ⊢
      rw [List.map_append]
      exact hu.trans (List.prefix_append _ _)
    have hPf : ∀ t : List Char, ciMatch taiwanName t = true →
        (t.take taiwanName.length).map lowerAscii = taiwanName := by
      intro t ht
      rw [ciMatch_eq_isPrefixOf] at ht
      obtain ⟨r, hr⟩ := List.isPrefixOf_iff_prefix.1 ht
      rw [List.map_take, ← hr]
      exact List.take_left _ _
    obtain ⟨segs, ws, hl, hw, hd, ho, hsg⟩ :=
      scanReplace_decomp (ciMatch taiwanName) taiwanName.length taiwanLabel
        (fun w => w.map lowerAscii = taiwanName) h0 h1 h2 h3 hPf s.length s le_rfl
    exact ⟨segs, ws, hl, hw, hd, by rw [replaceAllCI]; exact ho, hsg⟩
  refine ⟨hid, ?_, exactDecomp twFlag unFlag (by decide), ciDecomp,
    exactDecomp taiwanHanzi taiwanLabel (by decide), ?_,
    by decide, by decide, by decide, fun n => rfl⟩
  · intro s h
    rw [formatRegion, hid s.data h]
  · intro s h
    simp [formatRegionL, h]

/-- Witness for C6: a marker-free region label is returned unchanged. -/
theorem region_label_normalization_witness :
    hasRegionMarker ("Tokyo, JP".data) = false ∧
      formatRegionL ("Tokyo, JP".data) = "Tokyo, JP".data :=
  ⟨by decide, region_label_normalization.1 _ (by decide)⟩

/-- C4 (amended): for positive inputs below `1024 ^ 5` bytes (resp. `1024 ^ 4`
bytes/sec) the formatters produce the rounded magnitude followed by a unit
drawn from the 5-entry byte table (resp. 4-entry rate table); at or beyond
that bound they are still total but append the string `"undefined"` — the
stringification of JavaScript out-of-bounds indexing — instead of a table
unit. -/
theorem format_units_table :
    (∀ b : ℕ, 0 < b → b < 1024 ^ 5 →
        ∃ s, s ∈ byteUnits ∧
          formatBytes b = magnitudeStr 2 ((b : ℚ) / 1024 ^ Nat.log 1024 b) ++ " " ++ s) ∧
    (∀ r : ℕ, 0 < r → r < 1024 ^ 4 →
        ∃ s, s ∈ speedUnits ∧
          formatSpeed r = magnitudeStr 1 ((r : ℚ) / 1024 ^ Nat.log 1024 r) ++ " " ++ s) ∧
    (∀ b : ℕ, 1024 ^ 5 ≤ b →
        formatBytes b =
          magnitudeStr 2 ((b : ℚ) / 1024 ^ Nat.log 1024 b) ++ " " ++ "undefined") ∧
    (∀ r : ℕ, 1024 ^ 4 ≤ r →
        formatSpeed r =
          magnitudeStr 1 ((r : ℚ) / 1024 ^ Nat.log 1024 r) ++ " " ++ "undefined") := by
  have hmem5 : ∀ j, j < 5 → byteUnits.getD j "undefined" ∈ byteUnits := by decide
  have hmem4 : ∀ j, j < 4 → speedUnits.getD j "undefined" ∈ speedUnits := by decide
  refine ⟨?_, ?_, ?_, ?_⟩
  · intro b hb hlt
    have hb' : b ≠ 0 := by omega
    have hm : (1024 : ℕ) ^ Nat.log 1024 b ≠ 0 := pow_ne_zero _ (by norm_num)
    have hi : Nat.log 1024 b < 5 := Nat.log_lt_of_lt_pow hb' hlt
    refine ⟨byteUnits.getD (Nat.log 1024 b) "undefined", hmem5 _ hi, ?_⟩
    rw [formatBytes_eval b hb', ← magnitudeStr_div_nat 2 b _ hm, ← pow_cast_1024]
  · intro r hr hlt
    have hr' : r ≠ 0 := by omega
    have hm : (1024 : ℕ) ^ Nat.log 1024 r ≠ 0 := pow_ne_zero _ (by norm_num)
    have hi : Nat.log 1024 r < 4 := Nat.log_lt_of_lt_pow hr' hlt
    refine ⟨speedUnits.getD (Nat.log 1024 r) "undefined", hmem4 _ hi, ?_⟩
    rw [formatSpeed_eval r hr', ← magnitudeStr_div_nat 1 r _ hm, ← pow_cast_1024]
  · intro b hbig
    have h0 : (0 : ℕ) < 1024 ^ 5 := by positivity
    have hb' : b ≠ 0 := by omega
    have hm : (1024 : ℕ) ^ Nat.log 1024 b ≠ 0 := pow_ne_zero _ (by norm_num)
    have hi : 5 ≤ Nat.log 1024 b := (Nat.pow_le_iff_le_log (by norm_num) hb').1 hbig
    have hD : byteUnits.getD (Nat.log 1024 b) "undefined" = "undefined" :=
      List.getD_eq_default _ _ (by simpa [byteUnits] using hi)
    rw [formatBytes_eval b hb', hD, ← magnitudeStr_div_nat 2 b _ hm, ← pow_cast_1024]
  · intro r hbig
    have h0 : (0 : ℕ) < 1024 ^ 4 := by positivity
    have hr' : r ≠ 0 := by omega
    have hm : (1024 : ℕ) ^ Nat.log 1024 r ≠ 0 := pow_ne_zero _ (by norm_num)
    have hi : 4 ≤ Nat.log 1024 r := (Nat.pow_le_iff_le_log (by norm_num) hr').1 hbig
    have hD : speedUnits.getD (Nat.log 1024 r) "undefined" = "undefined" :=
      List.getD_eq_default _ _ (by simpa [speedUnits] using hi)
    rw [formatSpeed_eval r hr', hD, ← magnitudeStr_div_nat 1 r _ hm, ← pow_cast_1024]

/-- Counterexample to C4 as stated: at exactly `1024 ^ 5` bytes the scaling
index is 5, beyond the byte-unit table, and the rendered suffix is the string
`"undefined"`, which is not one of `{B, KB, MB, GB, TB}`. -/
theorem format_units_beyond_table_counterexample :
    formatBytes (1024 ^ 5) = "1 undefined" ∧ "undefined" ∉ byteUnits := by
  have h0 : (1024 : ℕ) ^ 5 ≠ 0 := by positivity
  have hlog : Nat.log 1024 (1024 ^ 5) = 5 := Nat.log_pow (by norm_num) 5
  refine ⟨?_, by decide⟩
  rw [formatBytes_eval _ h0, hlog]
  decide

/-- Witness for C4 at a concrete input: 1536 bytes is positive and below
`1024 ^ 5`, and formats with a table unit. -/
theorem format_units_table_witness :
    0 < 1536 ∧ 1536 < 1024 ^ 5 ∧
      ∃ s, s ∈ byteUnits ∧
        formatBytes 1536 = magnitudeStr 2 ((1536 : ℚ) / 1024 ^ Nat.log 1024 1536) ++ " " ++ s :=
  ⟨by decide, by decide, format_units_table.1 1536 (by decide) (by decide)⟩

/-- C5: uptime renders whole days plus whole remaining hours; the days term is
omitted when the day count is zero, the hours term is omitted when the
remaining hours are zero but days are nonzero; 172800 s renders days-only. -/
theorem uptime_days_hours :
    (∀ s : ℕ, s / 86400 = 0 → formatUptime s = toString ((s % 86400) / 3600) ++ "小时") ∧
    (∀ s : ℕ, 0 < s / 86400 → (s % 86400) / 3600 = 0 →
        formatUptime s = toString (s / 86400) ++ "天") ∧
    (∀ s : ℕ, 0 < s / 86400 → 0 < (s % 86400) / 3600 →
        formatUptime s =
          toString (s / 86400) ++ "天" ++ toString ((s % 86400) / 3600) ++ "小时") ∧
    formatUptime 172800 = "2天" := by
  refine ⟨?_, ?_, ?_, by decide⟩
  · intro s h
    simp [formatUptime, h]
  · intro s h1 h2
    simp [formatUptime, h1, h2, Nat.not_lt_of_le (Nat.le_of_eq h2.symm)]
  · intro s h1 h2
    simp [formatUptime, h1, h2, String.append_assoc]

/-- Witness for C5: 172800 s is exactly 2 days — positive day count, zero
remaining hours — and renders days-only. -/
theorem uptime_days_hours_witness :
    0 < 172800 / 86400 ∧ (172800 % 86400) / 3600 = 0 ∧
      formatUptime 172800 = toString (172800 / 86400) ++ "天" :=
  ⟨by decide, by decide, uptime_days_hours.2.1 172800 (by decide) (by decide)⟩

lemma foldl_netStep (nodes : List NodeData) :
    ∀ acc : NetTotals, nodes.foldl netStep acc =
      ⟨acc.totalUp + (networkSumsSpec nodes).totalUp,
        acc.totalDown + (networkSumsSpec nodes).totalDown,
        acc.totalUpTraffic + (networkSumsSpec nodes).totalUpTraffic,
        acc.totalDownTraffic + (networkSumsSpec nodes).totalDownTraffic⟩ := by
  induction nodes with
  | nil =>
    intro acc
    simp [networkSumsSpec]
  | cons n ns ih =>
    intro acc
    rw [List.foldl_cons, ih (netStep acc n)]
    rcases hstatus : n.status with _ | s
    · simp [netStep, hstatus, networkSumsSpec, liveWithStats, List.filter_cons]
    · cases s
      · rcases hstats : n.stats with _ | st
        · simp [netStep, hstatus, hstats, networkSumsSpec, liveWithStats, List.filter_cons]
        · have hup : netUpOf n = st.network.up := by simp [netUpOf, hstats]
          have hdown : netDownOf n = st.network.down := by simp [netDownOf, hstats]
          have htu : netTotalUpOf n = st.network.totalUp := by simp [netTotalUpOf, hstats]
          have htd : netTotalDownOf n = st.network.totalDown := by simp [netTotalDownOf, hstats]
          simp [netStep, hstatus, hstats, networkSumsSpec, liveWithStats,
            List.filter_cons, hup, hdown, htu, htd]
          omega
      · simp [netStep, hstatus, networkSumsSpec, liveWithStats, List.filter_cons]

lemma netStep_of_stats_none (acc : NetTotals) (n : NodeData) (h : n.stats = none) :
    netStep acc n = acc := by
  rcases hstatus : n.status with _ | s
  · simp [netStep, hstatus]
  · cases s <;> simp [netStep, hstatus, h]

/-- C7: the fleet network aggregation sums the four counters of exactly the
records with `status = online` and present stats; an online record without
telemetry contributes zero; the empty fleet yields four zero sums; and in the
three-node scenario where only `a` and `b` report, the sums cover `a` and `b`
only. -/
theorem fleet_network_aggregation :
    (∀ nodes : List NodeData, getTotalNetworkStats nodes = networkSumsSpec nodes) ∧
    getTotalNetworkStats [] = ⟨0, 0, 0, 0⟩ ∧
    (∀ (n : NodeData) (nodes : List NodeData), n.stats = none →
        getTotalNetworkStats (n :: nodes) = getTotalNetworkStats nodes) ∧
    getTotalNetworkStats [nodeA, nodeB, nodeC] = ⟨11, 22, 303, 404⟩ := by
  refine ⟨?_, by decide, ?_, by decide⟩
  · intro nodes
    rw [getTotalNetworkStats, foldl_netStep nodes]
    simp
  · intro n nodes h
    rw [getTotalNetworkStats, List.foldl_cons, netStep_of_stats_none _ _ h,
      ← getTotalNetworkStats]

/-- Witness for C7: an online node with absent telemetry contributes nothing
to the sums. -/
theorem fleet_network_aggregation_witness :
    nodeOnlineNoStats.stats = none ∧
      getTotalNetworkStats [nodeOnlineNoStats, nodeA] = getTotalNetworkStats [nodeA] :=
  ⟨by decide, fleet_network_aggregation.2.2.1 nodeOnlineNoStats [nodeA] (by decide)⟩

/-- C8: theme restoration validates against the closed 8-identifier set: every
stored identifier in the set is applied, anything absent or outside the set is
ignored and the default `clean` kept. -/
theorem theme_restoration_validates :
    themeIds.length = 8 ∧
    restoreTheme none = defaultTheme ∧
    defaultTheme = "clean" ∧
    (∀ s : String, s ∈ themeIds → restoreTheme (some s) = s) ∧
    (∀ s : String, s ∉ themeIds → restoreTheme (some s) = defaultTheme) := by
  refine ⟨by decide, rfl, rfl, ?_, ?_⟩
  · intro s hs
    fin_cases hs <;> decide
  · intro s hs
    have hc : themeIds.contains s = false := by simpa using hs
    have hcond : (!s.isEmpty && themeIds.contains s) = false := by
      rw [hc, Bool.and_false]
    simp only [restoreTheme]
    rw [hcond]
    simp

/-- Witness for C8: the stored identifier `night` is recognized and applied,
and it is indeed one of the 8 identifiers. -/
theorem theme_restoration_validates_witness :
    "night" ∈ themeIds ∧ restoreTheme (some "night") = "night" :=
  ⟨by decide, theme_restoration_validates.2.2.2.1 "night" (by decide)⟩

/-- C9: a zero `total` in RAM or disk telemetry cannot raise — the division
yields the JavaScript values `Infinity` (used > 0) or `NaN` (used = 0), the
classification stays defined (`critical` resp. `normal`), and the rendered
percentage is the defined string `Infinity%` resp. `NaN%`. -/
theorem zero_total_division_defined :
    (∀ st : NodeStats, st.ram.total = 0 →
        ramStatus (some st) = (if st.ram.used = 0 then Severity.normal else .critical) ∧
        ramPercentText st = (if st.ram.used = 0 then "NaN%" else "Infinity%")) ∧
    (∀ st : NodeStats, st.disk.total = 0 →
        diskStatus (some st) = (if st.disk.used = 0 then Severity.normal else .critical) ∧
        diskPercentText st = (if st.disk.used = 0 then "NaN%" else "Infinity%")) := by
  refine ⟨?_, ?_⟩
  · intro st h
    by_cases hu : st.ram.used = 0
    · refine ⟨by simp [ramStatus, usagePercent, h, hu, JSNum.geQ], ?_⟩
      simp [ramPercentText, usagePercent, h, hu, JSNum.toFixedText]
    · refine ⟨by simp [ramStatus, usagePercent, h, hu, JSNum.geQ], ?_⟩
      simp [ramPercentText, usagePercent, h, hu, JSNum.toFixedText]
  · intro st h
    by_cases hu : st.disk.used = 0
    · refine ⟨by simp [diskStatus, usagePercent, h, hu, JSNum.geQ], ?_⟩
      simp [diskPercentText, usagePercent, h, hu, JSNum.toFixedText]
    · refine ⟨by simp [diskStatus, usagePercent, h, hu, JSNum.geQ], ?_⟩
      simp [diskPercentText, usagePercent, h, hu, JSNum.toFixedText]

/-- Witness for C9: RAM telemetry `total = 0, used = 5` classifies `critical`
and renders `Infinity%` without raising. -/
theorem zero_total_division_defined_witness :
    statsZeroTotals.ram.total = 0 ∧
      ramStatus (some statsZeroTotals) = .critical ∧
      ramPercentText statsZeroTotals = "Infinity%" := by
  have h := zero_total_division_defined.1 statsZeroTotals (by decide)
  refine ⟨by decide, ?_, ?_⟩
  · rw [h.1]
    decide
  · rw [h.2]
    decide

/-- C10: an absent `status` field is treated as offline at every presentation
point — `isOnline` is false, the badge and border show the offline state, the
record is excluded from the fleet network sums — exactly as if
`status = offline`; and only strict equality with `online` counts as
online. -/
theorem absent_status_offline :
    (∀ n : NodeData, isOnline n = true ↔ n.status = some NodeStatus.online) ∧
    (∀ (n : NodeData) (nodes : List NodeData), n.status = none →
        isOnline n = false ∧
        statusBadgeText n = "离线" ∧
        cardBorderClass n = "border-l-red-500" ∧
        getTotalNetworkStats (n :: nodes) = getTotalNetworkStats nodes ∧
        isOnline n = isOnline { n with status := some NodeStatus.offline } ∧
        statusBadgeText n = statusBadgeText { n with status := some NodeStatus.offline } ∧
        getTotalNetworkStats (n :: nodes)
          = getTotalNetworkStats ({ n with status := some NodeStatus.offline } :: nodes)) := by
  constructor
  · intro n
    simp [isOnline]
  · intro n nodes h
    have hOn : isOnline n = false := by simp [isOnline, h]
    have hOn2 : isOnline { n with status := some NodeStatus.offline } = false := by
      simp [isOnline]
    have hstep : ∀ acc, netStep acc n = acc := by
      intro acc
      simp [netStep, h]
    have hstep2 : ∀ acc, netStep acc { n with status := some NodeStatus.offline } = acc := by
      intro acc
      simp [netStep]
    refine ⟨hOn, ?_, ?_, ?_, ?_, ?_, ?_⟩
    · simp [statusBadgeText, hOn]
    · simp [cardBorderClass, hOn]
    · rw [getTotalNetworkStats, List.foldl_cons, hstep, ← getTotalNetworkStats]
    · rw [hOn, hOn2]
    · simp [statusBadgeText, hOn, hOn2]
    · rw [getTotalNetworkStats, List.foldl_cons, hstep,
        getTotalNetworkStats, List.foldl_cons, hstep2]

/-- Witness for C10: a concrete record with telemetry but no `status` field is
rendered offline and excluded from the sums. -/
theorem absent_status_offline_witness :
    nodeNoStatus.status = none ∧
      isOnline nodeNoStatus = false ∧
      getTotalNetworkStats [nodeNoStatus, nodeA] = getTotalNetworkStats [nodeA] := by
  have h := absent_status_offline.2 nodeNoStatus [nodeA] (by decide)
  exact ⟨by decide, h.1, h.2.2.2.1⟩

end Komari
